import Mathlib

/-!
Verification of the relay URI / SAS-token helpers of `hyco-ws-proxy`
(`src/index.js`).

The JavaScript source is shallowly embedded here:

* strings are Lean `String`s (list-of-`Char` backed), with all character
  processing done over `List Char`;
* byte strings are `List Nat` with every entry kept below 256;
* the Node primitives the source calls (`url.parse` / `url.format` from the
  legacy `url` module, `encodeURIComponent`, `crypto`'s HMAC-SHA-256,
  base64, `moment().add(s,'seconds').unix()`) are modelled as pure Lean
  functions, faithful to their documented behaviour on the inputs this
  program produces (restrictions of the `url` model are noted at its
  definition);
* the wall clock is an explicit `now : Nat` parameter (Unix seconds);
* JavaScript runtime failures (a `TypeError` from touching a property of
  `null`) are modelled with `Except JsError`.
-/

/-- The one kind of runtime failure the embedded code can raise: a JavaScript
`TypeError` (reading or assigning a property of `null`/`undefined`). -/
inductive JsError where
  | typeError
  deriving DecidableEq, Repr

/-! ## Character-list string primitives

Lean's built-in `String.startsWith`/`String.contains` go through `Substring`
byte positions and do not reduce well in the kernel, so the embedding uses
its own `List Char` primitives throughout. -/

/-- Does the character `c` occur in `l`?  (JS `indexOf(c) != -1`.) -/
def hasChar (l : List Char) (c : Char) : Bool :=
  match l with
  | [] => false
  | d :: t => if d = c then true else hasChar t c

/-- First index (if any) at which `pat` occurs as a contiguous sublist of
`l` — the JS `String.prototype.indexOf` for a string pattern. -/
def firstOccur (l pat : List Char) : Option Nat :=
  match l with
  | [] => if pat = [] then some 0 else none
  | _ :: t =>
    if pat.isPrefixOf l then some 0
    else match firstOccur t pat with
         | some i => some (i + 1)
         | none => none

/-- JS `String.prototype.replace` with a plain-string pattern and a
replacement containing no `$` escapes: replaces the first occurrence of
`pat` (and only it), returns `l` unchanged when `pat` does not occur. -/
def jsReplaceFirst (l pat rep : List Char) : List Char :=
  match l with
  | [] => if pat = [] then rep else []
  | c :: t =>
    if pat.isPrefixOf l then rep ++ l.drop pat.length
    else c :: jsReplaceFirst t pat rep

/-- ASCII lower-casing, as Node's legacy `url` module applies to the
protocol and hostname. -/
def lowerAscii (l : List Char) : List Char :=
  l.map fun c =>
    if 'A' ≤ c ∧ c ≤ 'Z' then Char.ofNat (c.toNat + 32) else c

/-- Split at the first occurrence of the character `c`: returns the part
strictly before it and, when `c` occurs, the part from `c` on (inclusive). -/
def splitAtChar (l : List Char) (c : Char) : List Char × Option (List Char) :=
  match l with
  | [] => ([], none)
  | d :: t =>
    if d = c then ([], some l)
    else
      let r := splitAtChar t c
      (d :: r.1, r.2)

/-- Take characters while the predicate holds (used for scanning the scheme
and host). -/
def takeWhileC (p : Char → Bool) (l : List Char) : List Char :=
  match l with
  | [] => []
  | c :: t => if p c then c :: takeWhileC p t else []

/-- Drop counterpart of `takeWhileC`. -/
def dropWhileC (p : Char → Bool) (l : List Char) : List Char :=
  match l with
  | [] => []
  | c :: t => if p c then dropWhileC p t else l

/-! ## `encodeURIComponent` -/

/-- The sixteen upper-case hexadecimal digit characters. -/
def hexChars : List Char :=
  ['0', '1', '2', '3', '4', '5', '6', '7', '8', '9', 'A', 'B', 'C', 'D', 'E', 'F']

/-- Upper-case hexadecimal digit of a value below 16 (other inputs, which
never arise, fall back to `'0'`). -/
def hexDigit : Nat → Char
  | 0 => '0' | 1 => '1' | 2 => '2' | 3 => '3'
  | 4 => '4' | 5 => '5' | 6 => '6' | 7 => '7'
  | 8 => '8' | 9 => '9' | 10 => 'A' | 11 => 'B'
  | 12 => 'C' | 13 => 'D' | 14 => 'E' | 15 => 'F'
  | _ => '0'

/-- The UTF-8 encoding of one code point, as byte values. -/
def utf8Bytes (c : Char) : List Nat :=
  let n := c.toNat
  if n < 0x80 then [n]
  else if n < 0x800 then [0xC0 + n / 64, 0x80 + n % 64]
  else if n < 0x10000 then [0xE0 + n / 4096, 0x80 + n / 64 % 64, 0x80 + n % 64]
  else [0xF0 + n / 262144, 0x80 + n / 4096 % 64, 0x80 + n / 64 % 64, 0x80 + n % 64]

/-- The UTF-8 bytes of a string (what Node feeds to the HMAC for a JS
string). -/
def utf8Str (s : String) : List Nat := s.data.flatMap utf8Bytes

/-- The characters `encodeURIComponent` leaves unescaped:
`A–Z a–z 0–9 - _ . ! ~ * ' ( )`. -/
def uriUnreserved (c : Char) : Bool :=
  ('A' ≤ c ∧ c ≤ 'Z') ∨ ('a' ≤ c ∧ c ≤ 'z') ∨ ('0' ≤ c ∧ c ≤ '9') ∨
    c = '-' ∨ c = '_' ∨ c = '.' ∨ c = '!' ∨ c = '~' ∨ c = '*' ∨ c = '\'' ∨
    c = '(' ∨ c = ')'

/-- `%XX` escape of one byte value. -/
def pctEscape (b : Nat) : List Char := ['%', hexDigit (b / 16), hexDigit (b % 16)]

/-- JS `encodeURIComponent` over a character list: unreserved characters are
kept, every other character is replaced by the `%XX` escapes of its UTF-8
bytes, upper-case hex. -/
def encodeURIComponentL (l : List Char) : List Char :=
  l.flatMap fun c =>
    if uriUnreserved c then [c] else (utf8Bytes c).flatMap pctEscape

/-- JS `encodeURIComponent` at the `String` level. -/
def encodeURIComponent (s : String) : String :=
  String.mk (encodeURIComponentL s.data)

theorem hexDigit_mem (n : Nat) : hexDigit n ∈ hexChars := by
  unfold hexDigit
  split <;> decide

theorem hasChar_iff (l : List Char) (c : Char) : hasChar l c = true ↔ c ∈ l := by
  induction l with
  | nil => simp [hasChar]
  | cons d t ih =>
    by_cases h : d = c
    · subst h; simp [hasChar]
    · rw [hasChar, if_neg h, ih, List.mem_cons]
      constructor
      · exact Or.inr
      · rintro (e | hm)
        · exact absurd e.symm h
        · exact hm

/-- Every character produced by `encodeURIComponentL` is unreserved, a `%`,
or an upper-case hex digit; in particular none of `# ? & =` ever appears. -/
theorem encodeURIComponentL_chars (l : List Char) (c : Char)
    (hc : c ∈ encodeURIComponentL l) :
    uriUnreserved c = true ∨ c = '%' ∨ c ∈ hexChars := by
  unfold encodeURIComponentL at hc
  rcases List.mem_flatMap.mp hc with ⟨d, _, hd⟩
  by_cases hu : uriUnreserved d
  · simp [hu] at hd
    subst hd
    exact Or.inl hu
  · simp [hu] at hd
    obtain ⟨b, -, hb⟩ := hd
    simp [pctEscape] at hb
    rcases hb with hb | hb | hb
    · exact Or.inr (Or.inl hb)
    · exact Or.inr (Or.inr (hb ▸ hexDigit_mem _))
    · exact Or.inr (Or.inr (hb ▸ hexDigit_mem _))

/-- `#` never occurs in an `encodeURIComponent` output. -/
theorem encodeURIComponentL_no_hash (l : List Char) :
    hasChar (encodeURIComponentL l) '#' = false := by
  rw [Bool.eq_false_iff]
  intro hmem
  rcases encodeURIComponentL_chars l '#' ((hasChar_iff _ _).mp hmem) with h | h | h
  · cases h
  · cases h
  · simp [hexChars] at h

/-! ## Base64

Standard base64 with `+ / =`, as produced by Node's
`hmac.digest('base64')` and consumed by `Buffer.from(s, 'base64')`. -/

/-- The 64-character base64 alphabet. -/
def b64Alphabet : List Char :=
  "ABCDEFGHIJKLMNOPQRSTUVWXYZabcdefghijklmnopqrstuvwxyz0123456789+/".data

/-- Alphabet character of a 6-bit value. -/
def b64c (n : Nat) : Char := b64Alphabet.getD n 'A'

/-- Index of an alphabet character (0 on characters outside the alphabet,
which decoding of well-formed input never meets). -/
def b64vAux : List Char → Char → Nat
  | [], _ => 0
  | d :: t, c => if d = c then 0 else 1 + b64vAux t c

/-- 6-bit value of an alphabet character. -/
def b64v (c : Char) : Nat := b64vAux b64Alphabet c

/-- Base64 encoding of a byte list: 3 bytes become 4 alphabet characters,
a trailing group of 1 or 2 bytes is padded with `=`. -/
def b64encode : List Nat → List Char
  | [] => []
  | [a] => [b64c (a / 4), b64c (a % 4 * 16), '=', '=']
  | [a, b] => [b64c (a / 4), b64c (a % 4 * 16 + b / 16), b64c (b % 16 * 4), '=']
  | a :: b :: c :: rest =>
    b64c (a / 4) :: b64c (a % 4 * 16 + b / 16) ::
      b64c (b % 16 * 4 + c / 64) :: b64c (c % 64) :: b64encode rest

/-- Base64 decoding: groups of 4 characters yield 3 bytes, with `=` padding
ending the input (1 byte for `xx==`, 2 bytes for `xxx=`). -/
def b64decode : List Char → List Nat
  | c1 :: c2 :: c3 :: c4 :: rest =>
    if c3 = '=' then [b64v c1 * 4 + b64v c2 / 16]
    else if c4 = '=' then
      [b64v c1 * 4 + b64v c2 / 16, b64v c2 % 16 * 16 + b64v c3 / 4]
    else
      (b64v c1 * 4 + b64v c2 / 16) :: (b64v c2 % 16 * 16 + b64v c3 / 4) ::
        (b64v c3 % 4 * 64 + b64v c4) :: b64decode rest
  | _ => []

/-- `String`-producing base64 encoder (Node `digest('base64')`). -/
def b64encodeStr (l : List Nat) : String := String.mk (b64encode l)

/-- `String`-consuming base64 decoder. -/
def b64decodeStr (s : String) : List Nat := b64decode s.data

theorem getD_mem_or {α : Type} (l : List α) (n : Nat) (d : α) :
    l.getD n d ∈ l ∨ l.getD n d = d := by
  induction l generalizing n with
  | nil => right; rfl
  | cons c t ih =>
    cases n with
    | zero => left; exact List.mem_cons_self _ _
    | succ m =>
      rcases ih m with h | h
      · left; exact List.mem_cons_of_mem _ h
      · right; exact h

theorem b64c_mem (n : Nat) : b64c n ∈ b64Alphabet := by
  rcases getD_mem_or b64Alphabet n 'A' with h | h
  · exact h
  · rw [b64c, h]; decide

theorem b64c_ne_pad (n : Nat) : b64c n ≠ '=' := by
  intro h
  have := b64c_mem n
  rw [h] at this
  revert this
  decide

theorem b64v_b64c : ∀ k, k < 64 → b64v (b64c k) = k := by decide

theorem mulb_add_div (b x r : Nat) (hb : 0 < b) (h : r < b) : (x * b + r) / b = x := by
  rw [mul_comm, Nat.mul_add_div hb, Nat.div_eq_of_lt h, Nat.add_zero]

theorem mulb_add_mod (b x r : Nat) (h : r < b) : (x * b + r) % b = r := by
  rw [mul_comm, Nat.mul_add_mod, Nat.mod_eq_of_lt h]

theorem mul_div_same (x b : Nat) (hb : 0 < b) : x * b / b = x := by
  have e : x * b / b = (x * b + 0) / b := by rw [Nat.add_zero]
  rw [e, mulb_add_div b x 0 hb hb]

/-- Decoding inverts encoding on genuine byte lists. -/
theorem b64decode_encode (l : List Nat) (h : ∀ b ∈ l, b < 256) :
    b64decode (b64encode l) = l := by
  induction l using b64encode.induct with
  | case1 => rfl
  | case2 a =>
    have ha : a < 256 := h a (by simp)
    simp only [b64encode, b64decode, if_true]
    rw [b64v_b64c _ (by omega), b64v_b64c _ (by omega),
      mul_div_same (a % 4) 16 (by norm_num)]
    congr 1
    omega
  | case3 a b =>
    have ha : a < 256 := h a (by simp)
    have hb : b < 256 := h b (by simp)
    simp only [b64encode, b64decode, if_neg (b64c_ne_pad _), if_true]
    rw [b64v_b64c _ (by omega), b64v_b64c _ (by omega), b64v_b64c _ (by omega),
      mulb_add_div 16 (a % 4) (b / 16) (by norm_num) (by omega),
      mulb_add_mod 16 (a % 4) (b / 16) (by omega),
      mul_div_same (b % 16) 4 (by norm_num)]
    congr 1
    · omega
    · congr 1
      omega
  | case4 a b c rest ih =>
    have ha : a < 256 := h a (by simp)
    have hb : b < 256 := h b (by simp)
    have hc : c < 256 := h c (by simp)
    have hrest : ∀ x ∈ rest, x < 256 := fun x hx => h x (by simp [hx])
    simp only [b64encode, b64decode, if_neg (b64c_ne_pad _)]
    rw [b64v_b64c _ (by omega), b64v_b64c _ (by omega), b64v_b64c _ (by omega),
      b64v_b64c _ (by omega), ih hrest,
      mulb_add_div 16 (a % 4) (b / 16) (by norm_num) (by omega),
      mulb_add_mod 16 (a % 4) (b / 16) (by omega),
      mulb_add_div 4 (b % 16) (c / 64) (by norm_num) (by omega),
      mulb_add_mod 4 (b % 16) (c / 64) (by omega)]
    congr 1
    · omega
    · congr 1
      · omega
      · congr 1
        omega

/-! ## SHA-256 and HMAC-SHA-256

A byte-level implementation of FIPS 180-4 SHA-256 and RFC 2104 HMAC,
modelling Node's `crypto.createHmac('sha256', key)`.  32-bit words are
`Nat`s reduced modulo `2^32` after every arithmetic step. -/

/-- Reduce to a 32-bit word. -/
def wrap32 (x : Nat) : Nat := x % 4294967296

/-- Right-rotation of a 32-bit word by `n` places. -/
def rotr (n x : Nat) : Nat := wrap32 (x / 2 ^ n + x % 2 ^ n * 2 ^ (32 - n))

/-- Logical right shift of a 32-bit word. -/
def shr (n x : Nat) : Nat := x / 2 ^ n

/-- Bitwise complement on 32 bits (the argument is always below `2^32`). -/
def not32 (x : Nat) : Nat := 4294967295 - x

def bsig0 (x : Nat) : Nat := rotr 2 x ^^^ rotr 13 x ^^^ rotr 22 x
def bsig1 (x : Nat) : Nat := rotr 6 x ^^^ rotr 11 x ^^^ rotr 25 x
def ssig0 (x : Nat) : Nat := rotr 7 x ^^^ rotr 18 x ^^^ shr 3 x
def ssig1 (x : Nat) : Nat := rotr 17 x ^^^ rotr 19 x ^^^ shr 10 x
def chFn (x y z : Nat) : Nat := (x &&& y) ^^^ (not32 x &&& z)
def majFn (x y z : Nat) : Nat := (x &&& y) ^^^ (x &&& z) ^^^ (y &&& z)

/-- The 64 SHA-256 round constants (FIPS 180-4 §4.2.2, in decimal). -/
def sha256K : List Nat :=
  [1116352408, 1899447441, 3049323471, 3921009573, 961987163,
   1508970993, 2453635748, 2870763221, 3624381080, 310598401,
   607225278, 1426881987, 1925078388, 2162078206, 2614888103,
   3248222580, 3835390401, 4022224774, 264347078, 604807628,
   770255983, 1249150122, 1555081692, 1996064986, 2554220882,
   2821834349, 2952996808, 3210313671, 3336571891, 3584528711,
   113926993, 338241895, 666307205, 773529912, 1294757372,
   1396182291, 1695183700, 1986661051, 2177026350, 2456956037,
   2730485921, 2820302411, 3259730800, 3345764771, 3516065817,
   3600352804, 4094571909, 275423344, 430227734, 506948616,
   659060556, 883997877, 958139571, 1322822218, 1537002063,
   1747873779, 1955562222, 2024104815, 2227730452, 2361852424,
   2428436474, 2756734187, 3204031479, 3329325298]

/-- The initial SHA-256 hash state (FIPS 180-4 §5.3.3, in decimal). -/
def sha256H0 : List Nat :=
  [1779033703, 3144134277, 1013904242, 2773480762,
   1359893119, 2600822924, 528734635, 1541459225]

/-- Big-endian bytes of a 64-bit value. -/
def be64 (n : Nat) : List Nat :=
  [n / 72057594037927936 % 256, n / 281474976710656 % 256,
   n / 1099511627776 % 256, n / 4294967296 % 256,
   n / 16777216 % 256, n / 65536 % 256, n / 256 % 256, n % 256]

/-- SHA-256 padding: a `0x80` byte, zeros to 56 mod 64, and the bit length
as a big-endian 64-bit value. -/
def sha256pad (msg : List Nat) : List Nat :=
  let len := msg.length
  let padLen := (120 - (len + 1) % 64) % 64
  msg ++ 128 :: (List.replicate padLen 0 ++ be64 (len * 8))

/-- Big-endian 32-bit words of a byte list. -/
def bytesToWords : List Nat → List Nat
  | a :: b :: c :: d :: rest =>
    (a * 16777216 + b * 65536 + c * 256 + d) :: bytesToWords rest
  | _ => []

/-- Big-endian bytes of a 32-bit word. -/
def wordToBytes (w : Nat) : List Nat :=
  [w / 16777216 % 256, w / 65536 % 256, w / 256 % 256, w % 256]

/-- Extend the 16-word message schedule by `n` further words. -/
def extendW (w : List Nat) : Nat → List Nat
  | 0 => w
  | k + 1 =>
    let i := w.length
    let nw := wrap32 (w.getD (i - 16) 0 + ssig0 (w.getD (i - 15) 0) +
      w.getD (i - 7) 0 + ssig1 (w.getD (i - 2) 0))
    extendW (w ++ [nw]) k

/-- One SHA-256 compression round on the 8-word working state. -/
def compressRound (st : List Nat) (k w : Nat) : List Nat :=
  match st with
  | [a, b, c, d, e, f, g, h] =>
    let t1 := wrap32 (h + bsig1 e + chFn e f g + k + w)
    let t2 := wrap32 (bsig0 a + majFn a b c)
    [wrap32 (t1 + t2), a, b, c, wrap32 (d + t1), e, f, g]
  | other => other

/-- Process one 64-byte block. -/
def compressBlock (hs block : List Nat) : List Nat :=
  let w := extendW (bytesToWords block) 48
  let st := (List.zip sha256K w).foldl (fun s kw => compressRound s kw.1 kw.2) hs
  List.zipWith (fun x y => wrap32 (x + y)) hs st

/-- Split a byte list into 64-byte chunks. -/
def chunks64 (l : List Nat) : List (List Nat) :=
  if h : l = [] then []
  else (l.take 64) :: chunks64 (l.drop 64)
termination_by l.length
decreasing_by
  simp only [List.length_drop]
  have := List.length_pos.mpr h
  omega

/-- SHA-256 of a byte list, as a 32-byte list. -/
def sha256 (msg : List Nat) : List Nat :=
  ((chunks64 (sha256pad msg)).foldl compressBlock sha256H0).flatMap wordToBytes

/-- HMAC-SHA-256 (RFC 2104) of a message under a key, both byte lists —
Node's `crypto.createHmac('sha256', key).update(msg).digest()`. -/
def hmacSha256 (key msg : List Nat) : List Nat :=
  let k0 := if 64 < key.length then sha256 key else key
  let kp := k0 ++ List.replicate (64 - k0.length) 0
  let ipadKey := kp.map fun b => b ^^^ 54
  let opadKey := kp.map fun b => b ^^^ 92
  sha256 (opadKey ++ sha256 (ipadKey ++ msg))

theorem wordToBytes_lt (w : Nat) : ∀ b ∈ wordToBytes w, b < 256 := by
  intro b hb
  simp [wordToBytes] at hb
  rcases hb with h | h | h | h <;> rw [h] <;>
    exact Nat.mod_lt _ (by norm_num)

/-- Every SHA-256 output entry is a byte value. -/
theorem sha256_bytes_lt (msg : List Nat) : ∀ b ∈ sha256 msg, b < 256 := by
  intro b hb
  unfold sha256 at hb
  rcases List.mem_flatMap.mp hb with ⟨w, -, hw⟩
  exact wordToBytes_lt w b hw

/-- Every HMAC-SHA-256 output entry is a byte value. -/
theorem hmacSha256_bytes_lt (key msg : List Nat) :
    ∀ b ∈ hmacSha256 key msg, b < 256 := by
  unfold hmacSha256
  exact sha256_bytes_lt _

/-! ## Node's legacy `url` module

A model of `url.parse` / `url.format` (the legacy `url` API of Node, which
`src/index.js` requires), restricted as follows: no `auth` (user:password@)
handling, no IPv6 bracket syntax, no hostname validation or IDNA/punycode,
no auto-escaping of control characters, and a host is parsed only for URLs
whose scheme part is followed by `//` (which covers every http/https/ws/wss
URL this library touches).  Everything else follows the legacy module:
`protocol` keeps its trailing `:` and is lower-cased, `hostname` is
lower-cased, `port` is split off by a trailing `:digits` run, `host` is the
rebuilt `hostname:port` string, `hash`/`search` keep their `#`/`?` prefix,
the first `#` ends the query part, and `pathname` defaults to `/` for
slashed protocols with a hostname.  `url.format` prefers `host` over
`hostname`+`port`, re-adds `//` and the path's leading slash, escapes `?`
and `#` in the path, escapes `#` in the search, and never reads `port` when
`host` is set. -/

/-- A parsed legacy `Url` object (the fields `url.format` reads). -/
structure UrlObj where
  protocol : Option String
  slashes : Bool
  host : Option String
  hostname : Option String
  port : Option String
  pathname : Option String
  search : Option String
  hash : Option String
  deriving DecidableEq, Repr

/-- JS field access with `|| ''` coercion: `null` and the empty string are
both falsy, every other string is itself. -/
def jsField (o : Option String) : List Char := (o.getD "").data

/-- Characters allowed in a scheme (Node's `protocolPattern`). -/
def isProtoChar (c : Char) : Bool :=
  ('a' ≤ c ∧ c ≤ 'z') ∨ ('A' ≤ c ∧ c ≤ 'Z') ∨ ('0' ≤ c ∧ c ≤ '9') ∨
    c = '.' ∨ c = '+' ∨ c = '-'

def isDigitC (c : Char) : Bool := '0' ≤ c ∧ c ≤ '9'

/-- A character that does not end the host part (Node's host ends at `/`,
`?` or `#`). -/
def notHostEnd (c : Char) : Bool := ¬(c = '/' ∨ c = '?' ∨ c = '#')

/-- Split `hostname` and `port` off a raw host string: Node's
`portPattern = /:[0-9]*$/`; a lone trailing `:` is dropped without setting
a port. -/
def parseHostPort (hostRaw : List Char) : List Char × Option (List Char) :=
  let rev := hostRaw.reverse
  let ds := takeWhileC isDigitC rev
  let after := dropWhileC isDigitC rev
  match after with
  | ':' :: restRev => (restRev.reverse, if ds = [] then none else some ds.reverse)
  | _ => (hostRaw, none)

/-- The protocols that imply `//` on re-serialization (Node's
`slashedProtocol` set). -/
def slashedProtocol (p : String) : Bool :=
  p = "http:" ∨ p = "https:" ∨ p = "ftp:" ∨ p = "gopher:" ∨ p = "file:" ∨
    p = "ws:" ∨ p = "wss:"

/-- Model of legacy `url.parse(s)` (no query-string object parsing). -/
def urlParse (s : String) : UrlObj :=
  let l := s.data
  let run := takeWhileC isProtoChar l
  let hasProto := run ≠ [] ∧ (l.drop run.length).head? = some ':'
  let protocol := if hasProto then some (String.mk (lowerAscii run ++ [':'])) else none
  let rest1 := if hasProto then l.drop (run.length + 1) else l
  let hasSlashes := rest1.take 2 = ['/', '/']
  let rest2 := if hasSlashes then rest1.drop 2 else rest1
  let hostRaw := if hasSlashes then takeWhileC notHostEnd rest2 else []
  let rest3 := if hasSlashes then dropWhileC notHostEnd rest2 else rest2
  let hp := parseHostPort hostRaw
  let hostLower := lowerAscii hp.1
  let hostname := if hasSlashes then some (String.mk hostLower) else none
  let port := if hasSlashes then hp.2.map String.mk else none
  let host :=
    if hasSlashes then
      some (String.mk (hostLower ++ (match hp.2 with | some p => ':' :: p | none => [])))
    else none
  let sp1 := splitAtChar rest3 '#'
  let hash := sp1.2.map String.mk
  let sp2 := splitAtChar sp1.1 '?'
  let search := sp2.2.map String.mk
  let pathname0 := if sp2.1 = [] then none else some (String.mk sp2.1)
  let protoSlashed : Bool := match protocol with | some p => slashedProtocol p | none => false
  let hnTruthy : Bool := match hostname with | some hn => hn ≠ "" | none => false
  let pathname :=
    if pathname0 = none ∧ protoSlashed ∧ hnTruthy then some "/" else pathname0
  { protocol := protocol, slashes := hasSlashes, host := host,
    hostname := hostname, port := port, pathname := pathname,
    search := search, hash := hash }

/-- `url.format`'s escaping of `?` and `#` inside the path. -/
def fmtEscapePath (l : List Char) : List Char :=
  l.flatMap fun c =>
    if c = '#' then ['%', '2', '3']
    else if c = '?' then ['%', '3', 'F'] else [c]

/-- The `protocol ++ host ++ pathname` part of `url.format`. -/
def urlFormatPre (u : UrlObj) : List Char :=
  let protocol0 := jsField u.protocol
  let protocol :=
    if protocol0 = [] then []
    else if protocol0.getLast? = some ':' then protocol0
    else protocol0 ++ [':']
  let hostDefined := jsField u.host ≠ [] ∨ jsField u.hostname ≠ []
  let host0 :=
    if jsField u.host ≠ [] then jsField u.host
    else if jsField u.hostname ≠ [] then
      jsField u.hostname ++
        (if jsField u.port ≠ [] then ':' :: jsField u.port else [])
    else []
  let pathname0 := jsField u.pathname
  let slashy :=
    u.slashes ∨ ((protocol = [] ∨ slashedProtocol (String.mk protocol)) ∧ hostDefined)
  let host1 := if slashy then '/' :: '/' :: host0 else host0
  let pathname1 :=
    if slashy ∧ pathname0 ≠ [] ∧ pathname0.head? ≠ some '/' then '/' :: pathname0
    else pathname0
  protocol ++ host1 ++ fmtEscapePath pathname1

/-- The search part of `url.format`: `?` prefixed when missing, first `#`
escaped. -/
def urlFormatSearch (o : Option String) : List Char :=
  let search0 := jsField o
  let search1 :=
    if search0 = [] then []
    else if search0.head? = some '?' then search0
    else '?' :: search0
  jsReplaceFirst search1 ['#'] ['%', '2', '3']

/-- The hash part of `url.format`: `#` prefixed when missing. -/
def urlFormatHash (o : Option String) : List Char :=
  let h := jsField o
  if h = [] then [] else if h.head? = some '#' then h else '#' :: h

/-- Model of legacy `url.format`: `protocol + host + pathname + search +
hash`. -/
def urlFormat (u : UrlObj) : String :=
  String.mk (urlFormatPre u ++ urlFormatSearch u.search ++ urlFormatHash u.hash)

/-! ## The program: `src/index.js`

Each definition mirrors one exported function.  Wall-clock time is the
explicit `now` argument (Unix seconds); `moment().add(s,'seconds').unix()`
is `now + s`.  An absent or `null` JS argument is `none`. -/

/-- Lines 77–81: parse the `uri`, force the scheme to `http`, null out
`search`, `hash` and `port`, remove the first occurrence of `$hc/` from the
path, and re-serialize.  When the parsed `pathname` is `null` the JS
`.replace` call raises a `TypeError`, modelled as `none`. -/
def signedResource (uri : String) : Option String :=
  let parsedUrl := urlParse uri
  match parsedUrl.pathname with
  | none => none
  | some p =>
    some (urlFormat { parsedUrl with
      protocol := some "http", search := none, hash := none, port := none,
      pathname := some (String.mk (jsReplaceFirst p.data "$hc/".data [])) })

/-- Lines 83–88: the token expiry.  JS `if (!expirationSeconds)` replaces
every falsy value (absent, `null`, `0`) by 3600; then
`moment().add(expirationSeconds, 'seconds').unix()` is `now` plus the
expiration. -/
def sasSe (now : Nat) (expirationSeconds : Option Nat) : Nat :=
  match expirationSeconds with
  | none => now + 3600
  | some 0 => now + 3600
  | some s => now + s

/-- Lines 89–92: base64 HMAC-SHA-256 over
`encodeURIComponent(uri) + '\n' + unixSeconds`, keyed by the UTF-8 bytes of
`key`. -/
def sasSig (key sr : String) (se : Nat) : String :=
  let string_to_sign := encodeURIComponent sr ++ "\n" ++ Nat.repr se
  b64encodeStr (hmacSha256 (utf8Str key) (utf8Str string_to_sign))

/-- Lines 76–95: `createRelayToken`. -/
def createRelayToken (uri keyName key : String) (expirationSeconds : Option Nat)
    (now : Nat) : Except JsError String :=
  match signedResource uri with
  | none => .error .typeError
  | some sr =>
    let unixSeconds := sasSe now expirationSeconds
    let signature := sasSig key sr unixSeconds
    .ok ("SharedAccessSignature sr=" ++ encodeURIComponent sr ++
      "&sig=" ++ encodeURIComponent signature ++
      "&se=" ++ Nat.repr unixSeconds ++ "&skn=" ++ keyName)

/-- Lines 106–112: `appendRelayToken`.  JS `parsedUrl.search + '&sb-hc-token='
+ ...` coerces a `null` search to the string `"null"`. -/
def appendRelayToken (uri keyName key : String) (expirationSeconds : Option Nat)
    (now : Nat) : Except JsError String :=
  match createRelayToken uri keyName key expirationSeconds now with
  | .error e => .error e
  | .ok token =>
    let parsedUrl := urlParse uri
    let searchStr := match parsedUrl.search with | some s => s | none => "null"
    .ok (urlFormat { parsedUrl with
      search := some (searchStr ++ "&sb-hc-token=" ++ encodeURIComponent token) })

/-- Lines 121–123: `createRelayBaseUri`. -/
def createRelayBaseUri (serviceBusNamespace path : String) : String :=
  "wss://" ++ serviceBusNamespace ++ ":443/$hc/" ++ path

/-- Lines 134–144: `createRelaySendUri`. -/
def createRelaySendUri (serviceBusNamespace path : String)
    (token id : Option String) : String :=
  let uri := createRelayBaseUri serviceBusNamespace path
  let uri := uri ++ (if hasChar uri.data '?' then "&" else "?") ++ "sb-hc-action=connect"
  let uri := match token with
    | some t => uri ++ "&sb-hc-token=" ++ encodeURIComponent t
    | none => uri
  match id with
  | some i => uri ++ "&sb-hc-id=" ++ encodeURIComponent i
  | none => uri

/-- Lines 155–165: `createRelayListenUri`. -/
def createRelayListenUri (serviceBusNamespace path : String)
    (token id : Option String) : String :=
  let uri := createRelayBaseUri serviceBusNamespace path
  let uri := uri ++ (if hasChar uri.data '?' then "&" else "?") ++ "sb-hc-action=listen"
  let uri := match token with
    | some t => uri ++ "&sb-hc-token=" ++ encodeURIComponent t
    | none => uri
  match id with
  | some i => uri ++ "&sb-hc-id=" ++ encodeURIComponent i
  | none => uri

/-! ## `relayedConnect` (lines 47–65)

Only the observable effects this code itself produces are modelled: the
options bundle handed to the `WS` constructor and the list of `open`
listeners registered, each recorded as the JS value the listener's wrapper
body will invoke.  Both wrappers in the source (lines 57–59 and 60–62)
invoke `fn`. -/

/-- A JS argument value, as far as `typeof`/`!= null` can distinguish the
cases `relayedConnect` branches on. -/
inductive JsArg where
  | jsNull
  | jsStr (s : String)
  | jsObj
  | jsFunc (tag : Nat)
  deriving DecidableEq, Repr

/-- `typeof x === 'object'` (true for `null` as well, but the source always
guards with `!= null` first). -/
def jsTypeofObject : JsArg → Bool
  | .jsObj => true
  | .jsNull => true
  | _ => false

/-- `typeof x === 'function'`. -/
def jsTypeofFunction : JsArg → Bool
  | .jsFunc _ => true
  | _ => false

/-- The options bundle built for the `WS` constructor. -/
structure ConnectOptions where
  authHeader : Option JsArg
  agent : Option JsArg
  deriving DecidableEq, Repr

/-- What `relayedConnect` observably does before returning: the client's
address and options, and the registered `open` listeners (each entry is the
value that listener's wrapper calls when `open` fires). -/
structure ConnectResult where
  address : String
  options : Option ConnectOptions
  openListeners : List JsArg
  deriving DecidableEq, Repr

/-- Lines 47–65: `relayedConnect`.  `opt` stays `null` when `token` is
`null`; assigning `opt.agent` on a `null` `opt` raises a `TypeError`. -/
def relayedConnect (address : String) (token agent fn : JsArg) :
    Except JsError ConnectResult :=
  let opt : Option ConnectOptions :=
    if token ≠ JsArg.jsNull then some { authHeader := some token, agent := none }
    else none
  if agent ≠ JsArg.jsNull ∧ jsTypeofObject agent then
    match opt with
    | none => .error .typeError
    | some o =>
      let opt2 := some { o with agent := some agent }
      let ls := (if jsTypeofFunction fn then [fn] else []) ++
        (if jsTypeofFunction agent then [fn] else [])
      .ok { address := address, options := opt2, openListeners := ls }
  else
    let ls := (if jsTypeofFunction fn then [fn] else []) ++
      (if jsTypeofFunction agent then [fn] else [])
    .ok { address := address, options := opt, openListeners := ls }

/-! ## General helper lemmas -/

theorem hasChar_append (a b : List Char) (c : Char) :
    hasChar (a ++ b) c = (hasChar a c || hasChar b c) := by
  induction a with
  | nil => simp [hasChar]
  | cons d t ih =>
    by_cases h : d = c <;> simp [hasChar, h, ih]

/-- A single-character pattern that does not occur is not replaced. -/
theorem jsReplaceFirst_no_occur (l : List Char) (c : Char) (rep : List Char)
    (h : hasChar l c = false) : jsReplaceFirst l [c] rep = l := by
  induction l with
  | nil => simp [jsReplaceFirst]
  | cons d t ih =>
    rw [hasChar] at h
    by_cases hdc : d = c
    · rw [if_pos hdc] at h
      cases h
    · rw [if_neg hdc] at h
      rw [jsReplaceFirst, if_neg, ih h]
      simp [List.isPrefixOf]
      intro he
      exact absurd he.symm hdc

/-- Replacing a pattern whose first character differs from the list's head
leaves the head alone. -/
theorem jsReplaceFirst_cons_ne (c : Char) (t pat rep : List Char)
    (hne : pat ≠ []) (hpat : pat.head? ≠ some c) :
    jsReplaceFirst (c :: t) pat rep = c :: jsReplaceFirst t pat rep := by
  rw [jsReplaceFirst, if_neg]
  match pat, hne with
  | d :: pt, _ =>
    have hdc : d ≠ c := by
      intro h
      exact hpat (by rw [h]; rfl)
    simp [List.isPrefixOf]
    intro he
    exact absurd he hdc

/-- Replacement by the empty string only removes characters. -/
theorem jsReplaceFirst_mem_subset (p pat : List Char) (c : Char)
    (hc : c ∈ jsReplaceFirst p pat []) : c ∈ p := by
  induction p with
  | nil =>
    rw [jsReplaceFirst] at hc
    rcases hc' : (pat = []) with _
    by_cases hp : pat = [] <;> simp [hp] at hc
  | cons d t ih =>
    rw [jsReplaceFirst] at hc
    by_cases hp : pat.isPrefixOf (d :: t)
    · rw [if_pos hp] at hc
      simp at hc
      exact List.mem_of_mem_drop hc
    · rw [if_neg hp] at hc
      rcases List.mem_cons.mp hc with h | h
      · exact h ▸ List.mem_cons_self _ _
      · exact List.mem_cons_of_mem _ (ih h)

/-- `flatMap` with a pointwise-identity function is the identity. -/
theorem flatMap_id_of_forall (l : List Char) (f : Char → List Char)
    (h : ∀ c ∈ l, f c = [c]) : l.flatMap f = l := by
  induction l with
  | nil => rfl
  | cons d t ih =>
    rw [List.flatMap_cons, h d (List.mem_cons_self _ _),
      ih (fun c hc => h c (List.mem_cons_of_mem _ hc))]
    rfl

/-- `url.format`'s path escaping is the identity on paths free of `?` and
`#`. -/
theorem fmtEscapePath_id (l : List Char)
    (hq : hasChar l '?' = false) (hh : hasChar l '#' = false) :
    fmtEscapePath l = l := by
  apply flatMap_id_of_forall
  intro c hc
  have hcq : c ≠ '?' := by
    intro h
    rw [h] at hc
    rw [(hasChar_iff l '?').mpr hc] at hq
    cases hq
  have hch : c ≠ '#' := by
    intro h
    rw [h] at hc
    rw [(hasChar_iff l '#').mpr hc] at hh
    cases hh
  simp [hch, hcq]

theorem string_eq_of_data {a b : String} (h : a.data = b.data) : a = b := by
  cases a
  cases b
  exact congrArg String.mk h

/-! ## Claim theorems -/

/-- C2: the `sig` of every token is the base64 of HMAC-SHA-256, keyed by
`key`, over `URI-encode(signedResource) + "\n" + expiryUnixSeconds`;
equivalently, base64-decoding the signature recovers exactly that HMAC
(signature verification round-trip).  `sasSig` is the function the token
assembly on line 93 uses for its `sig` field (see `claim_C4`), so this
covers every generated token. -/
theorem claim_C2 (key sr : String) (se : Nat) :
    b64decodeStr (sasSig key sr se) =
      hmacSha256 (utf8Str key)
        (utf8Str (encodeURIComponent sr ++ "\n" ++ Nat.repr se)) := by
  unfold sasSig b64decodeStr b64encodeStr
  exact b64decode_encode _ (hmacSha256_bytes_lt _ _)

/-- C3: the `se` value is `unix(now) + expirationSeconds`, where an absent,
`null` or zero (falsy) `expirationSeconds` is replaced by 3600; for
`now = 2021-01-01T00:00:00Z` (unix 1609459200) and 60 seconds the expiry is
1609459260.  `sasSe` is the expiry the token on line 93 embeds as `se`
(see `claim_C4`). -/
theorem claim_C3 :
    (∀ now, sasSe now none = now + 3600 ∧ sasSe now (some 0) = now + 3600) ∧
    (∀ now k, k ≠ 0 → sasSe now (some k) = now + k) ∧
    sasSe 1609459200 (some 60) = 1609459260 := by
  refine ⟨fun now => ⟨rfl, rfl⟩, fun now k hk => ?_, rfl⟩
  cases k with
  | zero => exact absurd rfl hk
  | succ m => rfl

theorem claim_C3_witness :
    (60 : Nat) ≠ 0 ∧ sasSe 1609459200 (some 60) = 1609459260 :=
  ⟨by decide, claim_C3.2.1 1609459200 60 (by decide)⟩

/-- C4: whenever the URI normalization succeeds (the only case in which the
JS function returns at all), the returned string has exactly the form
`SharedAccessSignature sr=<enc sr>&sig=<enc sig>&se=<se>&skn=<keyName>`,
in this fixed field order, with `sr` and `sig` URI-encoded and `se` and
`skn` inserted verbatim. -/
theorem claim_C4 (uri keyName key : String) (e : Option Nat) (now : Nat)
    (sr : String) (h : signedResource uri = some sr) :
    createRelayToken uri keyName key e now =
      Except.ok ("SharedAccessSignature sr=" ++ encodeURIComponent sr ++
        "&sig=" ++ encodeURIComponent (sasSig key sr (sasSe now e)) ++
        "&se=" ++ Nat.repr (sasSe now e) ++ "&skn=" ++ keyName) := by
  unfold createRelayToken
  rw [h]

theorem claim_C4_witness :
    signedResource "https://contoso.servicebus.windows.net/$hc/foo?x=1#frag" =
      some "http://contoso.servicebus.windows.net/foo" ∧
    createRelayToken "https://contoso.servicebus.windows.net/$hc/foo?x=1#frag"
        "myKeyName" "myKey" (some 60) 1609459200 =
      Except.ok ("SharedAccessSignature sr=" ++
        encodeURIComponent "http://contoso.servicebus.windows.net/foo" ++
        "&sig=" ++ encodeURIComponent
          (sasSig "myKey" "http://contoso.servicebus.windows.net/foo"
            (sasSe 1609459200 (some 60))) ++
        "&se=" ++ Nat.repr (sasSe 1609459200 (some 60)) ++ "&skn=" ++ "myKeyName") :=
  ⟨by decide,
    claim_C4 "https://contoso.servicebus.windows.net/$hc/foo?x=1#frag"
      "myKeyName" "myKey" (some 60) 1609459200
      "http://contoso.servicebus.windows.net/foo" (by decide)⟩

/-- C8: determinism under a fixed clock.  In this embedding the clock is the
explicit `now` argument and every embedded operation is a Lean function of
its arguments alone, so two calls with the same tuple of arguments (and the
same `now`) give the same token string, and the URI builders give
byte-identical strings on equal argument lists. -/
theorem claim_C8 (uri keyName key : String) (e : Option Nat) (now : Nat)
    (ns p : String) (token id : Option String) :
    createRelayToken uri keyName key e now = createRelayToken uri keyName key e now ∧
    createRelayBaseUri ns p = createRelayBaseUri ns p ∧
    createRelaySendUri ns p token id = createRelaySendUri ns p token id ∧
    createRelayListenUri ns p token id = createRelayListenUri ns p token id :=
  ⟨rfl, rfl, rfl, rfl⟩

/-- C9 (code behaviour at the failing inputs): with both `agent` and `fn`
functions, `relayedConnect` registers TWO `open` listeners, each invoking
`fn` — not the single registration the claim states; and with `fn` not
callable but `agent` callable, the single registered listener still invokes
`fn` (here `null`, a crash when `open` fires), never `agent`.  Lines 60–62
duplicate lines 57–59 verbatim, including the call to `fn`. -/
theorem claim_C9_code_behavior :
    (relayedConnect "wss://x" (JsArg.jsStr "tok") (JsArg.jsFunc 2) (JsArg.jsFunc 1) =
      Except.ok ⟨"wss://x", some ⟨some (JsArg.jsStr "tok"), none⟩,
        [JsArg.jsFunc 1, JsArg.jsFunc 1]⟩) ∧
    (relayedConnect "wss://x" (JsArg.jsStr "tok") (JsArg.jsFunc 2) JsArg.jsNull =
      Except.ok ⟨"wss://x", some ⟨some (JsArg.jsStr "tok"), none⟩, [JsArg.jsNull]⟩) := by
  exact ⟨rfl, rfl⟩

/-- C10: with `token == null` and a non-null object `agent`, the options
bundle stays `null` and line 53 assigns `opt.agent` on `null`, raising a
`TypeError` before any connection is created. -/
theorem claim_C10 (address : String) (fn : JsArg) :
    relayedConnect address JsArg.jsNull JsArg.jsObj fn =
      Except.error JsError.typeError := rfl

/-- The optional query tail the claim describes for `SendUri`/`ListenUri`:
`&sb-hc-token=<enc token>` when a token is given, then `&sb-hc-id=<enc id>`
when an id is given. -/
def specSendTail (token id : Option String) : String :=
  (match token with
    | some t => "&sb-hc-token=" ++ encodeURIComponent t
    | none => "") ++
  (match id with
    | some i => "&sb-hc-id=" ++ encodeURIComponent i
    | none => "")

/-- C5 counterexample: the claim says `SendUri` always appends
`?sb-hc-action=connect` right after the base URI, for every namespace and
path; but for a path already containing `?` (here `"a?b"`) the code joins
with `&` instead, so the claimed shape fails. -/
theorem claim_C5_counterexample :
    ¬ (createRelaySendUri "ns" "a?b" none none =
        createRelayBaseUri "ns" "a?b" ++ "?sb-hc-action=connect" ++
          specSendTail none none) := by decide

/-- C5 (amended): provided neither the namespace nor the path contains `?`
(so the base URI `wss://<ns>:443/$hc/<p>` is `?`-free), `SendUri` returns
the base URI followed by `?sb-hc-action=connect`, then the optional
`&sb-hc-token=<enc token>` and `&sb-hc-id=<enc id>` parts, and `ListenUri`
on the same arguments differs only in `listen` in place of `connect`.
(When the base URI already contains `?`, the code uses `&` as the first
separator instead — the `claim_C5_counterexample` case.) -/
theorem claim_C5_amended (ns p : String) (token id : Option String)
    (hn : hasChar ns.data '?' = false) (hp : hasChar p.data '?' = false) :
    createRelaySendUri ns p token id =
      createRelayBaseUri ns p ++ "?sb-hc-action=connect" ++ specSendTail token id ∧
    createRelayListenUri ns p token id =
      createRelayBaseUri ns p ++ "?sb-hc-action=listen" ++ specSendTail token id := by
  have hb : hasChar (createRelayBaseUri ns p).data '?' = false := by
    unfold createRelayBaseUri
    simp only [String.data_append, hasChar_append, hn, hp, Bool.or_false]
    decide
  constructor
  · cases token <;> cases id <;>
      · simp only [createRelaySendUri, hb, Bool.false_eq_true, if_false, specSendTail]
        apply string_eq_of_data
        simp [createRelayBaseUri, String.data_append, List.append_assoc]
  · cases token <;> cases id <;>
      · simp only [createRelayListenUri, hb, Bool.false_eq_true, if_false, specSendTail]
        apply string_eq_of_data
        simp [createRelayBaseUri, String.data_append, List.append_assoc]

theorem claim_C5_amended_witness :
    hasChar "ns.servicebus.windows.net".data '?' = false ∧
    hasChar "foo".data '?' = false ∧
    (createRelaySendUri "ns.servicebus.windows.net" "foo" (some "TOK") (some "ID1") =
      createRelayBaseUri "ns.servicebus.windows.net" "foo" ++ "?sb-hc-action=connect" ++
        specSendTail (some "TOK") (some "ID1") ∧
    createRelayListenUri "ns.servicebus.windows.net" "foo" (some "TOK") (some "ID1") =
      createRelayBaseUri "ns.servicebus.windows.net" "foo" ++ "?sb-hc-action=listen" ++
        specSendTail (some "TOK") (some "ID1")) :=
  ⟨by decide, by decide,
    claim_C5_amended "ns.servicebus.windows.net" "foo" (some "TOK") (some "ID1")
      (by decide) (by decide)⟩

/-- C6: with both `token` and `id` absent, `SendUri`/`ListenUri` emit no
`sb-hc-token` or `sb-hc-id` parameter at all: the result is exactly the
base URI, one separator character, and `sb-hc-action=connect`
(resp. `listen`) — nothing after it, no trailing `&`, no empty values. -/
theorem claim_C6 (ns p : String) :
    (∃ sep : String, (sep = "?" ∨ sep = "&") ∧
      createRelaySendUri ns p none none =
        createRelayBaseUri ns p ++ sep ++ "sb-hc-action=connect") ∧
    (∃ sep : String, (sep = "?" ∨ sep = "&") ∧
      createRelayListenUri ns p none none =
        createRelayBaseUri ns p ++ sep ++ "sb-hc-action=listen") := by
  constructor
  · by_cases h : hasChar (createRelayBaseUri ns p).data '?' = true
    · refine ⟨"&", Or.inr rfl, ?_⟩
      simp only [createRelaySendUri, h, if_true]
    · have h2 : hasChar (createRelayBaseUri ns p).data '?' = false :=
        Bool.not_eq_true _ ▸ h
      refine ⟨"?", Or.inl rfl, ?_⟩
      simp only [createRelaySendUri, h2, Bool.false_eq_true, if_false]
  · by_cases h : hasChar (createRelayBaseUri ns p).data '?' = true
    · refine ⟨"&", Or.inr rfl, ?_⟩
      simp only [createRelayListenUri, h, if_true]
    · have h2 : hasChar (createRelayBaseUri ns p).data '?' = false :=
        Bool.not_eq_true _ ▸ h
      refine ⟨"?", Or.inl rfl, ?_⟩
      simp only [createRelayListenUri, h2, Bool.false_eq_true, if_false]

/-- `urlFormatPre` does not read the `search` field. -/
theorem urlFormatPre_search_irrel (u : UrlObj) (x : Option String) :
    urlFormatPre { u with search := x } = urlFormatPre u := rfl

/-- On a genuine query string (leading `?`, no `#`), `url.format`'s search
part is the identity. -/
theorem urlFormatSearch_of_query (s : String) (hq : s.data.head? = some '?')
    (hnh : hasChar s.data '#' = false) : urlFormatSearch (some s) = s.data := by
  cases hsd : s.data with
  | nil => rw [hsd] at hq; cases hq
  | cons c r =>
    rw [hsd] at hq
    have hc : c = '?' := by
      have : some c = some '?' := hq
      injection this
    subst hc
    have hnh' := hnh
    rw [hsd] at hnh'
    simp only [urlFormatSearch, jsField, Option.getD, hsd, List.head?_cons]
    rw [if_neg (List.cons_ne_nil _ _), if_pos trivial]
    exact jsReplaceFirst_no_occur _ _ _ hnh'

/-- The `&sb-hc-token=<enc token>` tail appended by `appendRelayToken`
never contains `#`. -/
theorem appended_tail_no_hash (tok : String) :
    hasChar ("&sb-hc-token=" ++ encodeURIComponent tok).data '#' = false := by
  rw [String.data_append, hasChar_append,
    show (encodeURIComponent tok).data = encodeURIComponentL tok.data from rfl,
    encodeURIComponentL_no_hash]
  decide

/-- C7: on a `uri` that already carries a `?query` (and no fragment, and
that the legacy `url` parse/format pair reproduces verbatim),
`appendRelayToken` returns the same uri with `&sb-hc-token=<enc token>`
appended to the existing query string, where the token is `createRelayToken`
on the same arguments; everything before the query is preserved. -/
theorem claim_C7 (uri keyName key : String) (e : Option Nat) (now : Nat)
    (s : String)
    (hs : (urlParse uri).search = some s)
    (hq : s.data.head? = some '?')
    (hnh : hasChar s.data '#' = false)
    (hhash : (urlParse uri).hash = none)
    (hrt : urlFormat (urlParse uri) = uri) :
    appendRelayToken uri keyName key e now =
      (createRelayToken uri keyName key e now).map
        (fun tok => uri ++ "&sb-hc-token=" ++ encodeURIComponent tok) := by
  unfold appendRelayToken
  cases htok : createRelayToken uri keyName key e now with
  | error err => rfl
  | ok tok =>
    simp only [Except.map, hs]
    congr 1
    have hq2 : (s ++ "&sb-hc-token=" ++ encodeURIComponent tok).data.head? = some '?' := by
      rw [String.data_append, String.data_append]
      cases hsd : s.data with
      | nil => rw [hsd] at hq; cases hq
      | cons c r =>
        rw [hsd] at hq
        simp only [List.head?_cons, Option.some.injEq] at hq
        simp only [List.cons_append, List.head?_cons, Option.some.injEq]
        exact hq
    have hnh2 : hasChar (s ++ "&sb-hc-token=" ++ encodeURIComponent tok).data '#' = false := by
      rw [String.data_append, String.data_append, hasChar_append, hasChar_append, hnh,
        show (encodeURIComponent tok).data = encodeURIComponentL tok.data from rfl,
        encodeURIComponentL_no_hash]
      decide
    show String.mk
      (urlFormatPre { urlParse uri with
          search := some (s ++ "&sb-hc-token=" ++ encodeURIComponent tok) } ++
        urlFormatSearch (some (s ++ "&sb-hc-token=" ++ encodeURIComponent tok)) ++
        urlFormatHash (urlParse uri).hash) =
      uri ++ "&sb-hc-token=" ++ encodeURIComponent tok
    rw [urlFormatPre_search_irrel, hhash, urlFormatSearch_of_query _ hq2 hnh2]
    conv_rhs => rw [← hrt]
    unfold urlFormat
    rw [hs, hhash, urlFormatSearch_of_query _ hq hnh]
    apply string_eq_of_data
    simp [String.data_append, List.append_assoc, urlFormatHash, jsField]

theorem claim_C7_witness :
    (urlParse "wss://ns:443/$hc/foo?sb-hc-action=connect").search =
      some "?sb-hc-action=connect" ∧
    ("?sb-hc-action=connect" : String).data.head? = some '?' ∧
    hasChar ("?sb-hc-action=connect" : String).data '#' = false ∧
    (urlParse "wss://ns:443/$hc/foo?sb-hc-action=connect").hash = none ∧
    urlFormat (urlParse "wss://ns:443/$hc/foo?sb-hc-action=connect") =
      "wss://ns:443/$hc/foo?sb-hc-action=connect" ∧
    appendRelayToken "wss://ns:443/$hc/foo?sb-hc-action=connect" "kn" "key"
        (some 60) 1609459200 =
      (createRelayToken "wss://ns:443/$hc/foo?sb-hc-action=connect" "kn" "key"
          (some 60) 1609459200).map
        (fun tok => "wss://ns:443/$hc/foo?sb-hc-action=connect" ++
          "&sb-hc-token=" ++ encodeURIComponent tok) :=
  ⟨by decide, by decide, by decide, by decide, by decide,
    claim_C7 "wss://ns:443/$hc/foo?sb-hc-action=connect" "kn" "key" (some 60)
      1609459200 "?sb-hc-action=connect" (by decide) (by decide) (by decide)
      (by decide) (by decide)⟩

/-! ## C1: the signed resource -/

/-- The spec's path normalization, as the claim words it: a LEADING `$hc/`
segment is removed from the path, nothing else. -/
def stripLeadingHc (p : String) : String :=
  if p.data.take 5 = "/$hc/".data then String.mk ('/' :: p.data.drop 5) else p

/-- The claim's normalized signed resource: scheme forced to `http`, query,
fragment and port stripped, leading `$hc/` segment removed from the path
(stated over the same parsed fields the code reads). -/
def claimSignedResource (uri : String) : Option String :=
  match (urlParse uri).hostname, (urlParse uri).pathname with
  | some h, some p => some ("http://" ++ h ++ stripLeadingHc p)
  | _, _ => none

/-- C1 counterexample: for
`https://contoso.servicebus.windows.net:8080/a/$hc/b?x=1#f` the code signs
`http://contoso.servicebus.windows.net:8080/a/b` — the port survives
(legacy `url.format` prefers the untouched `host`, which still carries the
port, over the nulled `port` field) and the `$hc/` removed is not a leading
segment but the first occurrence anywhere — while the claim's normalization
gives `http://contoso.servicebus.windows.net/a/$hc/b`.  So `CreateToken`
does not sign the claim's normalized resource on every input. -/
theorem claim_C1_counterexample :
    ¬ (signedResource "https://contoso.servicebus.windows.net:8080/a/$hc/b?x=1#f" =
        claimSignedResource "https://contoso.servicebus.windows.net:8080/a/$hc/b?x=1#f") := by
  decide

theorem hasChar_jsReplaceFirst_nil (p pat : List Char) (c : Char)
    (h : hasChar p c = false) : hasChar (jsReplaceFirst p pat []) c = false := by
  rw [Bool.eq_false_iff]
  intro hc
  have hm := jsReplaceFirst_mem_subset p pat c ((hasChar_iff _ _).mp hc)
  rw [(hasChar_iff _ _).mpr hm] at h
  cases h

theorem urlFormatPre_http_case (hs : String) (hn po se ha : Option String)
    (pd : List Char)
    (hsne : hs.data ≠ []) (hph : pd.head? = some '/')
    (hq : hasChar pd '?' = false) (hh : hasChar pd '#' = false) :
    urlFormatPre ⟨some "http", true, some hs, hn, po, some (String.mk pd), se, ha⟩ =
      "http://".data ++ hs.data ++ pd := by
  unfold urlFormatPre jsField
  simp only [Option.getD]
  simp [hsne, hph, fmtEscapePath_id pd hq hh]

/-- C1 (amended): for every uri that parses to a slashed URL with a
non-empty host and a slash-leading, query- and fragment-free path, the
signed resource is the uri with the scheme forced to `http`, the query and
fragment stripped, the HOST PART `hostname[:port]` kept verbatim (the
`port` field is nulled but legacy `url.format` serializes the untouched
`host`, so an explicit port survives in the signed resource), and the FIRST
occurrence of `$hc/` anywhere in the path removed (in particular a leading
`$hc/` segment, as in the spec's example, which still evaluates to
`http://contoso.servicebus.windows.net/foo`). -/
theorem claim_C1_amended (uri : String) (hs p : String)
    (hslash : (urlParse uri).slashes = true)
    (hhost : (urlParse uri).host = some hs)
    (hhs : hs ≠ "")
    (hpath : (urlParse uri).pathname = some p)
    (hp0 : p.data.head? = some '/')
    (hpq : hasChar p.data '?' = false)
    (hph : hasChar p.data '#' = false) :
    signedResource uri =
      some ("http://" ++ hs ++ String.mk (jsReplaceFirst p.data "$hc/".data [])) := by
  have hsne : hs.data ≠ [] := fun h => hhs (string_eq_of_data h)
  have hq' : hasChar (jsReplaceFirst p.data "$hc/".data []) '?' = false :=
    hasChar_jsReplaceFirst_nil _ _ _ hpq
  have hh' : hasChar (jsReplaceFirst p.data "$hc/".data []) '#' = false :=
    hasChar_jsReplaceFirst_nil _ _ _ hph
  have hhead : (jsReplaceFirst p.data "$hc/".data []).head? = some '/' := by
    cases hpd : p.data with
    | nil => rw [hpd] at hp0; cases hp0
    | cons c r =>
      rw [hpd] at hp0
      simp only [List.head?_cons, Option.some.injEq] at hp0
      subst hp0
      rw [jsReplaceFirst_cons_ne _ _ _ _ (by decide) (by decide)]
      rfl
  simp only [signedResource, hpath]
  congr 1
  rw [hslash, hhost]
  unfold urlFormat
  simp only []
  rw [urlFormatPre_http_case hs _ _ _ _ _ hsne hhead hq' hh',
    show urlFormatSearch none = [] from rfl, show urlFormatHash none = [] from rfl]
  apply string_eq_of_data
  simp [String.data_append, List.append_assoc]

theorem claim_C1_amended_witness :
    (urlParse "https://contoso.servicebus.windows.net/$hc/foo?x=1#frag").slashes = true ∧
    (urlParse "https://contoso.servicebus.windows.net/$hc/foo?x=1#frag").host =
      some "contoso.servicebus.windows.net" ∧
    ("contoso.servicebus.windows.net" : String) ≠ "" ∧
    (urlParse "https://contoso.servicebus.windows.net/$hc/foo?x=1#frag").pathname =
      some "/$hc/foo" ∧
    ("/$hc/foo" : String).data.head? = some '/' ∧
    hasChar ("/$hc/foo" : String).data '?' = false ∧
    hasChar ("/$hc/foo" : String).data '#' = false ∧
    signedResource "https://contoso.servicebus.windows.net/$hc/foo?x=1#frag" =
      some "http://contoso.servicebus.windows.net/foo" :=
  ⟨by decide, by decide, by decide, by decide, by decide, by decide, by decide,
    (claim_C1_amended "https://contoso.servicebus.windows.net/$hc/foo?x=1#frag"
      "contoso.servicebus.windows.net" "/$hc/foo" (by decide) (by decide) (by decide)
      (by decide) (by decide) (by decide) (by decide)).trans (by decide)⟩
